import Mathlib

/-!
Verification of the kanji-roguelite decision layer (src/main.py): tier
classification, the leveling curve and its inverse, tier-gated encounter
generation with fallback chains, and multi-reading answer validation.

Randomness (the weighted tier choice, `random.sample`, `random.choice`) is
injected as explicit parameters, following the design note of the spec that
stochastic selection should be a pure function of an injected random source.
The leveling curve of src/main.py lines 419-434 evaluates `50 * 1.5 ** (L-1)`
in IEEE binary64 through the platform's libm; that floating-point computation
is outside this embedding, so only the integer-valued parts of the decision
layer are formalised here.
-/

set_option autoImplicit false

namespace KanjiRoguelite

/-- A lexical record as built by the vocab loaders: the Python tuple
`(surface, readings, meaning, tier)` of src/main.py (`load_kindle_vocab`,
`load_jmdict_only`). -/
structure LexEntry where
  surface : String
  readings : List String
  meaning : String
  tier : Nat
deriving DecidableEq

/-- Tier assignment from an external frequency list,
`assign_tier_from_frequency` of src/main.py lines 78-107.  The frequency
mapping is modelled as an association list with exact rational scores.  A word
absent from the list falls back to length-based tiers. -/
def assign_tier_from_frequency (word : String) (freq_dict : List (String × ℚ)) : Nat :=
  match freq_dict.lookup word with
  | none =>
      if word.length ≤ 2 then 1
      else if word.length = 3 then 2
      else 3
  | some freq =>
      if 1000 ≤ freq then 1
      else if 100 ≤ freq then 2
      else 3

/-- Maximum unlocked tier, `max_tier_for_level` of src/main.py lines 437-444. -/
def max_tier_for_level (level : Nat) : Nat :=
  if 5 ≤ level then 3
  else if 3 ≤ level then 2
  else 1

/-- The `Player` dataclass of src/main.py lines 450-458. -/
structure Player where
  x : Int
  y : Int
  hp : Int
  max_hp : Int
  xp : Nat
  streak : Nat
  level : Nat
deriving DecidableEq

/-- The `Enemy` dataclass of src/main.py lines 461-467. -/
structure Enemy where
  hp : Int
  dmg : Nat
  xp : Nat
  tier : Nat
  words : List LexEntry
deriving DecidableEq

/-- The placeholder record returned by `Enemy.next_word` on an empty word
list (src/main.py line 471). -/
def errorWord : LexEntry :=
  ⟨"ERROR", ["えらー"], "No meaning available", 1⟩

/-- `Enemy.next_word` of src/main.py lines 469-472.  `random.choice` over a
non-empty list is modelled by an injected index `k`, reduced modulo the list
length. -/
def Enemy.next_word (e : Enemy) (k : Nat) : LexEntry :=
  if e.words = [] then errorWord
  else e.words.getD (k % e.words.length) errorWord

/-- The tier buckets dictionary built by the loaders: exactly the keys 1, 2, 3
(src/main.py line 227 / line 321). -/
structure TierBuckets where
  b1 : List LexEntry
  b2 : List LexEntry
  b3 : List LexEntry

/-- `tier_buckets.get(t, [])`: bucket lookup with default empty list. -/
def TierBuckets.bucket (tb : TierBuckets) (t : Nat) : List LexEntry :=
  if t = 1 then tb.b1
  else if t = 2 then tb.b2
  else if t = 3 then tb.b3
  else []

/-- The fallback scan `for t in range(max_tier, 0, -1)` of `create_enemy`
(src/main.py lines 518-522): the first non-empty bucket from `n` down to 1,
together with its tier. -/
def scanDown (tb : TierBuckets) : Nat → Option (Nat × List LexEntry)
  | 0 => none
  | t + 1 =>
      if tb.bucket (t + 1) = [] then scanDown tb t
      else some (t + 1, tb.bucket (t + 1))

/-- Working tier and bucket resolution of `create_enemy` (src/main.py lines
515-524): the chosen tier's bucket if non-empty, else the fallback scan, else
the flattening `sum(tier_buckets.values(), [])` keeping the chosen tier. -/
def resolveWords (tb : TierBuckets) (chosen maxTier : Nat) : Nat × List LexEntry :=
  if tb.bucket chosen = [] then
    match scanDown tb maxTier with
    | some (t, ws) => (t, ws)
    | none => (chosen, tb.b1 ++ tb.b2 ++ tb.b3)
  else (chosen, tb.bucket chosen)

/-- `random.sample(words, 25)` modelled by an injected list of indices into
the bucket: sampling without replacement means the indices are distinct. -/
def sampleIdx (l : List LexEntry) (idxs : List Nat) : List LexEntry :=
  idxs.filterMap (fun i => l[i]?)

/-- The pool cap of `create_enemy` (src/main.py lines 530-531): sample 25
records when the bucket holds more than 25, else use it whole. -/
def capPool (l : List LexEntry) (idxs : List Nat) : List LexEntry :=
  if 25 < l.length then sampleIdx l idxs else l

/-- `create_enemy` of src/main.py lines 503-537.  The weighted random tier
choice and the `random.sample` draw are injected (`chosen`, `idxs`); stats are
pure functions of the resolved tier. -/
def create_enemy (tb : TierBuckets) (player_level : Nat) (chosen : Nat)
    (idxs : List Nat) : Except String Enemy :=
  let r := resolveWords tb chosen (max_tier_for_level player_level)
  if r.2 = [] then Except.error "No words available to create enemy!"
  else Except.ok
    { hp := 2 + (r.1 : Int) * 3
      dmg := 1 + r.1 * 2
      xp := 10 * r.1
      tier := r.1
      words := capPool r.2 idxs }

/-- Modelled from the spec: the `jaconv.kata2hira` half of the transliteration
contract (spec section 6), implemented in the source by the external `jaconv`
library.  Katakana code points map to hiragana by the fixed offset 0x60; all
other characters are unchanged. -/
def kata2hiraChar (c : Char) : Char :=
  if 0x30A1 ≤ c.toNat ∧ c.toNat ≤ 0x30F6 then Char.ofNat (c.toNat - 0x60) else c

/-- Modelled from the spec: `jaconv.kata2hira` applied character-wise. -/
def kata2hira (s : String) : String :=
  String.mk (s.toList.map kata2hiraChar)

/-- Modelled from the spec: the `romkan.to_hiragana` half of the
transliteration contract (spec section 6), implemented in the source by the
external `romkan` library.  Greedy conversion of basic Hepburn romaji
syllables to hiragana; unconvertible keystrokes are dropped (the contract is
total and never fails). -/
def romajiToKana : List Char → String
  | [] => ""
  | 's' :: 'h' :: 'i' :: r => "し" ++ romajiToKana r
  | 'c' :: 'h' :: 'i' :: r => "ち" ++ romajiToKana r
  | 't' :: 's' :: 'u' :: r => "つ" ++ romajiToKana r
  | 'k' :: 'a' :: r => "か" ++ romajiToKana r
  | 'k' :: 'i' :: r => "き" ++ romajiToKana r
  | 'k' :: 'u' :: r => "く" ++ romajiToKana r
  | 'k' :: 'e' :: r => "け" ++ romajiToKana r
  | 'k' :: 'o' :: r => "こ" ++ romajiToKana r
  | 's' :: 'a' :: r => "さ" ++ romajiToKana r
  | 's' :: 'u' :: r => "す" ++ romajiToKana r
  | 's' :: 'e' :: r => "せ" ++ romajiToKana r
  | 's' :: 'o' :: r => "そ" ++ romajiToKana r
  | 't' :: 'a' :: r => "た" ++ romajiToKana r
  | 't' :: 'e' :: r => "て" ++ romajiToKana r
  | 't' :: 'o' :: r => "と" ++ romajiToKana r
  | 'n' :: 'a' :: r => "な" ++ romajiToKana r
  | 'n' :: 'i' :: r => "に" ++ romajiToKana r
  | 'n' :: 'u' :: r => "ぬ" ++ romajiToKana r
  | 'n' :: 'e' :: r => "ね" ++ romajiToKana r
  | 'n' :: 'o' :: r => "の" ++ romajiToKana r
  | 'h' :: 'a' :: r => "は" ++ romajiToKana r
  | 'h' :: 'i' :: r => "ひ" ++ romajiToKana r
  | 'f' :: 'u' :: r => "ふ" ++ romajiToKana r
  | 'h' :: 'e' :: r => "へ" ++ romajiToKana r
  | 'h' :: 'o' :: r => "ほ" ++ romajiToKana r
  | 'm' :: 'a' :: r => "ま" ++ romajiToKana r
  | 'm' :: 'i' :: r => "み" ++ romajiToKana r
  | 'm' :: 'u' :: r => "む" ++ romajiToKana r
  | 'm' :: 'e' :: r => "め" ++ romajiToKana r
  | 'm' :: 'o' :: r => "も" ++ romajiToKana r
  | 'y' :: 'a' :: r => "や" ++ romajiToKana r
  | 'y' :: 'u' :: r => "ゆ" ++ romajiToKana r
  | 'y' :: 'o' :: r => "よ" ++ romajiToKana r
  | 'r' :: 'a' :: r => "ら" ++ romajiToKana r
  | 'r' :: 'i' :: r => "り" ++ romajiToKana r
  | 'r' :: 'u' :: r => "る" ++ romajiToKana r
  | 'r' :: 'e' :: r => "れ" ++ romajiToKana r
  | 'r' :: 'o' :: r => "ろ" ++ romajiToKana r
  | 'w' :: 'a' :: r => "わ" ++ romajiToKana r
  | 'w' :: 'o' :: r => "を" ++ romajiToKana r
  | 'a' :: r => "あ" ++ romajiToKana r
  | 'i' :: r => "い" ++ romajiToKana r
  | 'u' :: r => "う" ++ romajiToKana r
  | 'e' :: r => "え" ++ romajiToKana r
  | 'o' :: r => "お" ++ romajiToKana r
  | 'n' :: r => "ん" ++ romajiToKana r
  | _ :: r => romajiToKana r

/-- `romaji_to_hiragana` of src/main.py lines 113-118.  The trailing
`jaconv.normalize` is modelled from the spec as the identity on the hiragana
output of the conversion. -/
def romaji_to_hiragana (s : String) : String :=
  kata2hira (romajiToKana s.toList)

/-- The answer check of `on_input_submitted` (src/main.py lines 731-742):
strip and normalize the candidate and every accepted reading, then test list
membership.  The normalizer (`jaconv.kata2hira`) is a parameter, per the
transliteration contract of spec section 6. -/
def checkAnswer (k2h : String → String) (currentKana : String)
    (readings : List String) : Bool :=
  (readings.map (fun r => k2h r.trim)).contains (k2h currentKana.trim)

/-- Removal of the answered word from the enemy rotation (src/main.py lines
753-756): keep exactly the records whose surface, readings or meaning differ
from the presented word's. -/
def removeWord (words : List LexEntry) (cw : String) (crs : List String)
    (cm : String) : List LexEntry :=
  words.filter (fun w => !(w.surface == cw && w.readings == crs && w.meaning == cm))

/-- The state update of `on_input_submitted` on a judged answer (src/main.py
lines 747-759): on correct, the enemy loses `2 + streak` hp, the streak
increments, and the presented word leaves the rotation; on incorrect, the
player loses `enemy.dmg` hp and the streak resets. -/
def applyAnswer (isCorrect : Bool) (p : Player) (e : Enemy)
    (cw : String) (crs : List String) (cm : String) : Player × Enemy :=
  if isCorrect then
    ({ p with streak := p.streak + 1 },
     { e with hp := e.hp - (2 + (p.streak : Int)),
              words := removeWord e.words cw crs cm })
  else
    ({ p with hp := p.hp - (e.dmg : Int), streak := 0 }, e)

/-- A concrete record used in witnesses and counterexamples. -/
def nekoEntry : LexEntry := ⟨"猫", ["ねこ"], "cat", 1⟩

/-- A family of pairwise-distinct records, distinguished by the tier field. -/
def mkEntry (n : Nat) : LexEntry := ⟨"w", [], "w", n⟩

/-- A bucket of 40 pairwise-distinct records. -/
def bucket40 : List LexEntry := (List.range 40).map mkEntry

/-- Buckets with one word in tier 1 only. -/
def tbOne : TierBuckets := ⟨[nekoEntry], [], []⟩

/-- Entirely empty buckets. -/
def tbEmpty : TierBuckets := ⟨[], [], []⟩

/-- A concrete player as created at game start (src/main.py line 569). -/
def playerZero : Player := ⟨20, 9, 30, 30, 0, 0, 1⟩

/-- An enemy holding two structurally identical but distinct records. -/
def enemyTwoNeko : Enemy := ⟨5, 3, 10, 1, [nekoEntry, nekoEntry]⟩

/-- An enemy with an exhausted word list. -/
def enemyEmpty : Enemy := ⟨5, 3, 10, 1, []⟩

/-- An enemy with a single remaining word. -/
def enemyOneWord : Enemy := ⟨5, 3, 10, 1, [nekoEntry]⟩

/-- A non-empty frequency list not containing every word. -/
def freqOne : List (String × ℚ) := [("する", 100000)]

/-! ## Tier classifier, validator and battle-state theorems -/

/-- C1 counterexample: with two structurally identical but distinct records in
the enemy's list, a correct answer removes both — the remaining list is empty,
not of length 1 as removal of exactly the one presented record would give. -/
theorem removeWord_counterexample :
    (applyAnswer true playerZero enemyTwoNeko "猫" ["ねこ"] "cat").2.words = [] ∧
    enemyTwoNeko.words.length = 2 ∧
    ¬ (applyAnswer true playerZero enemyTwoNeko "猫" ["ねこ"] "cat").2.words.length = 1 := by
  decide

/-- C1 (amended): on a correct answer the word removal is by value equality on
(surface, readings, meaning): a record survives iff it was present and differs
from the presented word in at least one of the three fields, so structurally
identical duplicates are removed together; the validator applies exactly this
removal to the enemy's remaining words. -/
theorem removeWord_value_eq (words : List LexEntry) (cw : String)
    (crs : List String) (cm : String) (w : LexEntry) :
    (w ∈ removeWord words cw crs cm ↔
      w ∈ words ∧ ¬(w.surface = cw ∧ w.readings = crs ∧ w.meaning = cm)) ∧
    ∀ (p : Player) (e : Enemy),
      (applyAnswer true p e cw crs cm).2.words = removeWord e.words cw crs cm := by
  constructor
  · simp only [removeWord, List.mem_filter, Bool.not_eq_true', Bool.and_eq_false_iff,
      beq_eq_false_iff_ne, ne_eq]
    tauto
  · intro p e
    rfl

/-- C2 counterexample: with a non-empty external frequency list, two words
absent from the list (hence with identical score status) receive different
tiers, and the absent two-character word does not get tier 3: the tier depends
on surface length. -/
theorem assign_tier_counterexample :
    freqOne ≠ [] ∧
    freqOne.lookup "ねこ" = none ∧
    freqOne.lookup "あいうえ" = none ∧
    assign_tier_from_frequency "ねこ" freqOne = 1 ∧
    assign_tier_from_frequency "あいうえ" freqOne = 3 ∧
    ¬ assign_tier_from_frequency "ねこ" freqOne = 3 := by
  decide

/-- C2 (amended): when an external frequency list is present, a record found
in the list is tiered solely by its score (score ≥ 1000 → tier 1,
score ≥ 100 → tier 2, else tier 3), while a record absent from the list falls
back to length-based tiers (length ≤ 2 → 1, length 3 → 2, longer → 3). -/
theorem assign_tier_policy (word : String) (d : List (String × ℚ)) :
    (∀ f, d.lookup word = some f →
      ((1000 ≤ f → assign_tier_from_frequency word d = 1) ∧
       (100 ≤ f → f < 1000 → assign_tier_from_frequency word d = 2) ∧
       (f < 100 → assign_tier_from_frequency word d = 3))) ∧
    (d.lookup word = none →
      ((word.length ≤ 2 → assign_tier_from_frequency word d = 1) ∧
       (word.length = 3 → assign_tier_from_frequency word d = 2) ∧
       (3 < word.length → assign_tier_from_frequency word d = 3))) := by
  constructor
  · intro f hf
    have hform : assign_tier_from_frequency word d =
        (if 1000 ≤ f then 1 else if 100 ≤ f then 2 else 3) := by
      unfold assign_tier_from_frequency
      rw [hf]
    rw [hform]
    refine ⟨fun h1 => by rw [if_pos h1], fun h1 h2 => ?_, fun h1 => ?_⟩
    · rw [if_neg (not_le.mpr h2), if_pos h1]
    · rw [if_neg (not_le.mpr (by linarith)), if_neg (not_le.mpr h1)]
  · intro hf
    have hform : assign_tier_from_frequency word d =
        (if word.length ≤ 2 then 1 else if word.length = 3 then 2 else 3) := by
      unfold assign_tier_from_frequency
      rw [hf]
    rw [hform]
    refine ⟨fun h1 => by rw [if_pos h1], fun h1 => ?_, fun h1 => ?_⟩
    · rw [if_neg (by omega), if_pos h1]
    · rw [if_neg (by omega), if_neg (by omega)]

/-- Witness for C2 (amended): a listed word scores into tier 1; an absent
two-character word falls back to tier 1. -/
theorem assign_tier_policy_witness :
    assign_tier_from_frequency "する" freqOne = 1 ∧
    assign_tier_from_frequency "ねこ" freqOne = 1 :=
  ⟨((assign_tier_policy "する" freqOne).1 100000 (by decide)).1 (by norm_num),
   ((assign_tier_policy "ねこ" freqOne).2 (by decide)).1 (by decide)⟩

/-- C4: the validator's state update — a correct answer damages the enemy by
2 plus the streak before increment (streak 0 gives damage 2, streak 3 gives
damage 5) and increments the streak; an incorrect answer costs the player
exactly `enemy.dmg` hp and zeroes the streak whatever its prior value. -/
theorem applyAnswer_update (p : Player) (e : Enemy) (cw : String)
    (crs : List String) (cm : String) :
    ((applyAnswer true p e cw crs cm).2.hp = e.hp - (2 + (p.streak : Int)) ∧
     (applyAnswer true p e cw crs cm).1.streak = p.streak + 1 ∧
     (applyAnswer true p e cw crs cm).1.hp = p.hp) ∧
    ((applyAnswer false p e cw crs cm).1.hp = p.hp - (e.dmg : Int) ∧
     (applyAnswer false p e cw crs cm).1.streak = 0 ∧
     (applyAnswer false p e cw crs cm).2 = e) ∧
    (applyAnswer true { p with streak := 0 } e cw crs cm).2.hp = e.hp - 2 ∧
    (applyAnswer true { p with streak := 3 } e cw crs cm).2.hp = e.hp - 5 := by
  refine ⟨⟨rfl, rfl, rfl⟩, ⟨rfl, rfl, rfl⟩, ?_, ?_⟩
  · show e.hp - (2 + ((0 : Nat) : Int)) = e.hp - 2
    norm_num
  · show e.hp - (2 + ((3 : Nat) : Int)) = e.hp - 5
    norm_num

/-- The membership form of the answer check: correct iff the normalized
candidate equals some normalized accepted reading. -/
theorem checkAnswer_iff (k2h : String → String) (ck : String) (rs : List String) :
    checkAnswer k2h ck rs = true ↔ ∃ r ∈ rs, k2h ck.trim = k2h r.trim := by
  constructor
  · intro h
    have hmem : k2h ck.trim ∈ rs.map (fun r => k2h r.trim) := List.elem_iff.mp h
    obtain ⟨r, hr, he⟩ := List.mem_map.mp hmem
    exact ⟨r, hr, he.symm⟩
  · rintro ⟨r, hr, he⟩
    exact List.elem_iff.mpr (List.mem_map.mpr ⟨r, hr, he.symm⟩)

/-- C5: the answer is judged correct iff the normalized candidate equals at
least one normalized accepted reading, and the romanized candidate "neko",
transliterated and normalized, validates against accepted readings of only
"ねこ". -/
theorem checkAnswer_spec :
    (∀ (k2h : String → String) (ck : String) (rs : List String),
      checkAnswer k2h ck rs = true ↔ ∃ r ∈ rs, k2h ck.trim = k2h r.trim) ∧
    checkAnswer kata2hira (romaji_to_hiragana "neko") ["ねこ"] = true := by
  refine ⟨checkAnswer_iff, ?_⟩
  have hck : romaji_to_hiragana "neko" = "ねこ" := by decide
  rw [hck]
  exact (checkAnswer_iff kata2hira "ねこ" ["ねこ"]).mpr
    ⟨"ねこ", List.mem_singleton.mpr rfl, rfl⟩

/-- C10: on an exhausted word list `next_word` does not fail: it returns the
fixed placeholder record; on a non-empty list it returns an element of the
list. -/
theorem next_word_spec (e : Enemy) (k : Nat) :
    (e.words = [] → e.next_word k = errorWord) ∧
    (e.words ≠ [] → e.next_word k ∈ e.words) := by
  constructor
  · intro h
    unfold Enemy.next_word
    rw [if_pos h]
  · intro h
    unfold Enemy.next_word
    rw [if_neg h]
    have hlen : 0 < e.words.length := List.length_pos.mpr h
    have hk : k % e.words.length < e.words.length := Nat.mod_lt _ hlen
    rw [List.getD_eq_getElem?_getD, List.getElem?_eq_getElem hk]
    exact List.getElem_mem _

/-- Witness for C10: the empty-list and singleton-list cases. -/
theorem next_word_spec_witness :
    enemyEmpty.next_word 0 = errorWord ∧
    enemyOneWord.next_word 5 ∈ enemyOneWord.words :=
  ⟨(next_word_spec enemyEmpty 0).1 rfl, (next_word_spec enemyOneWord 5).2 (by decide)⟩

/-! ## Encounter generation -/

theorem bucket_all_empty (tb : TierBuckets) (h1 : tb.b1 = []) (h2 : tb.b2 = [])
    (h3 : tb.b3 = []) (t : Nat) : tb.bucket t = [] := by
  unfold TierBuckets.bucket
  split_ifs <;> first | assumption | rfl

/-- Characterization of a successful fallback scan: it returns the bucket of
the largest non-empty tier not exceeding `n`. -/
theorem scanDown_some (tb : TierBuckets) : ∀ (n t : Nat) (ws : List LexEntry),
    scanDown tb n = some (t, ws) →
    ws = tb.bucket t ∧ ws ≠ [] ∧ 1 ≤ t ∧ t ≤ n ∧
      ∀ u, t < u → u ≤ n → tb.bucket u = [] := by
  intro n
  induction n with
  | zero => intro t ws h; exact absurd h (by simp [scanDown])
  | succ m ih =>
    intro t ws h
    simp only [scanDown] at h
    by_cases hb : tb.bucket (m + 1) = []
    · rw [if_pos hb] at h
      obtain ⟨he, hne, h1, hle, hall⟩ := ih t ws h
      refine ⟨he, hne, h1, by omega, ?_⟩
      intro u hu1 hu2
      rcases Nat.lt_or_ge u (m + 1) with hcase | hcase
      · exact hall u hu1 (by omega)
      · have hu : u = m + 1 := by omega
        rw [hu]; exact hb
    · rw [if_neg hb] at h
      obtain ⟨h1, h2⟩ := Prod.mk.inj (Option.some.inj h)
      subst h1
      subst h2
      exact ⟨rfl, hb, by omega, le_rfl, fun u hu1 hu2 => by omega⟩

/-- A failed fallback scan means every tier from 1 to `n` is empty. -/
theorem scanDown_none (tb : TierBuckets) : ∀ (n : Nat),
    scanDown tb n = none → ∀ u, 1 ≤ u → u ≤ n → tb.bucket u = [] := by
  intro n
  induction n with
  | zero => intro _ u h1 h2; exact absurd (h1.trans h2) (by decide)
  | succ m ih =>
    intro h u h1 h2
    simp only [scanDown] at h
    by_cases hb : tb.bucket (m + 1) = []
    · rw [if_pos hb] at h
      rcases Nat.lt_or_ge u (m + 1) with hc | hc
      · exact ih h u h1 (by omega)
      · have hu : u = m + 1 := by omega
        rw [hu]; exact hb
    · rw [if_neg hb] at h
      exact absurd h (by simp)

theorem scanDown_of_empty (tb : TierBuckets) (h1 : tb.b1 = []) (h2 : tb.b2 = [])
    (h3 : tb.b3 = []) : ∀ n, scanDown tb n = none := by
  intro n
  induction n with
  | zero => rfl
  | succ m ih =>
    simp only [scanDown]
    rw [if_pos (bucket_all_empty tb h1 h2 h3 (m + 1))]
    exact ih

theorem resolveWords_pos (tb : TierBuckets) (chosen mt : Nat)
    (hc : ¬ tb.bucket chosen = []) :
    resolveWords tb chosen mt = (chosen, tb.bucket chosen) := by
  unfold resolveWords
  rw [if_neg hc]

theorem resolveWords_scan (tb : TierBuckets) (chosen mt t : Nat) (ws : List LexEntry)
    (hc : tb.bucket chosen = []) (hs : scanDown tb mt = some (t, ws)) :
    resolveWords tb chosen mt = (t, ws) := by
  unfold resolveWords
  rw [if_pos hc, hs]

theorem resolveWords_flat (tb : TierBuckets) (chosen mt : Nat)
    (hc : tb.bucket chosen = []) (hs : scanDown tb mt = none) :
    resolveWords tb chosen mt = (chosen, tb.b1 ++ tb.b2 ++ tb.b3) := by
  unfold resolveWords
  rw [if_pos hc, hs]

/-- The resolved bucket is empty exactly when the whole pool is empty. -/
theorem resolveWords_empty_iff (tb : TierBuckets) (chosen mt : Nat) :
    (resolveWords tb chosen mt).2 = [] ↔ tb.b1 = [] ∧ tb.b2 = [] ∧ tb.b3 = [] := by
  constructor
  · intro h
    by_cases hc : tb.bucket chosen = []
    · cases hs : scanDown tb mt with
      | some tw =>
        obtain ⟨t, ws⟩ := tw
        rw [resolveWords_scan tb chosen mt t ws hc hs] at h
        exact absurd h (scanDown_some tb mt t ws hs).2.1
      | none =>
        rw [resolveWords_flat tb chosen mt hc hs] at h
        simp only [List.append_eq_nil] at h
        tauto
    · rw [resolveWords_pos tb chosen mt hc] at h
      exact absurd h hc
  · rintro ⟨h1, h2, h3⟩
    have hc := bucket_all_empty tb h1 h2 h3 chosen
    rw [resolveWords_flat tb chosen mt hc (scanDown_of_empty tb h1 h2 h3 mt)]
    simp [h1, h2, h3]

/-- Sampling at a valid index prepends the record at that index. -/
theorem sampleIdx_cons (l : List LexEntry) (i : Nat) (t : List Nat)
    (hi : i < l.length) : sampleIdx l (i :: t) = l[i] :: sampleIdx l t := by
  unfold sampleIdx
  rw [List.filterMap_cons_some (List.getElem?_eq_getElem hi)]

theorem sampleIdx_length (l : List LexEntry) : ∀ (idxs : List Nat),
    (∀ i ∈ idxs, i < l.length) → (sampleIdx l idxs).length = idxs.length := by
  intro idxs
  induction idxs with
  | nil => intro _; rfl
  | cons i t ih =>
    intro h
    rw [sampleIdx_cons l i t (h i (List.mem_cons_self i t)), List.length_cons,
      List.length_cons, ih (fun j hj => h j (List.mem_cons_of_mem i hj))]

theorem sampleIdx_subset (l : List LexEntry) (idxs : List Nat) (w : LexEntry)
    (h : w ∈ sampleIdx l idxs) : w ∈ l := by
  unfold sampleIdx at h
  obtain ⟨i, _, he⟩ := List.mem_filterMap.mp h
  exact List.getElem?_mem he

/-- Sampling without replacement from a duplicate-free bucket yields a
duplicate-free selection. -/
theorem sampleIdx_nodup (l : List LexEntry) (hl : l.Nodup) : ∀ (idxs : List Nat),
    idxs.Nodup → (∀ i ∈ idxs, i < l.length) → (sampleIdx l idxs).Nodup := by
  intro idxs
  induction idxs with
  | nil => intro _ _; exact List.nodup_nil
  | cons i t ih =>
    intro hnd h
    have hi : i < l.length := h i (List.mem_cons_self i t)
    rw [sampleIdx_cons l i t hi]
    refine List.nodup_cons.mpr ⟨?_, ih (List.nodup_cons.mp hnd).2
      (fun j hj => h j (List.mem_cons_of_mem i hj))⟩
    intro hmem
    obtain ⟨j, hj, hje⟩ := List.mem_filterMap.mp hmem
    have hjlen : j < l.length := h j (List.mem_cons_of_mem i hj)
    rw [List.getElem?_eq_getElem hjlen] at hje
    have heq : l[j] = l[i] := Option.some.inj hje
    have hij : j = i := (List.Nodup.getElem_inj_iff hl).mp heq
    exact (List.nodup_cons.mp hnd).1 (hij ▸ hj)

/-- C3: `create_enemy` raises the fatal configuration error iff every tier
bucket is empty; with a record anywhere in the pool it returns an enemy with a
non-empty word set; and the bucket selection is: the weighted tier's bucket if
non-empty, else the first non-empty bucket scanning from `max_tier` down to 1,
else the flattening of all buckets. -/
theorem create_enemy_spec (tb : TierBuckets) (pl chosen : Nat) (idxs : List Nat)
    (hs : 25 < (resolveWords tb chosen (max_tier_for_level pl)).2.length →
      idxs.length = 25 ∧
        ∀ i ∈ idxs, i < (resolveWords tb chosen (max_tier_for_level pl)).2.length) :
    ((create_enemy tb pl chosen idxs = Except.error "No words available to create enemy!")
        ↔ tb.b1 = [] ∧ tb.b2 = [] ∧ tb.b3 = []) ∧
    ((tb.b1 ≠ [] ∨ tb.b2 ≠ [] ∨ tb.b3 ≠ []) →
      ∃ en, create_enemy tb pl chosen idxs = Except.ok en ∧ en.words ≠ []) ∧
    (tb.bucket chosen ≠ [] →
      resolveWords tb chosen (max_tier_for_level pl) = (chosen, tb.bucket chosen)) ∧
    (tb.bucket chosen = [] → ∀ t ws,
      scanDown tb (max_tier_for_level pl) = some (t, ws) →
        resolveWords tb chosen (max_tier_for_level pl) = (t, ws) ∧
        ws = tb.bucket t ∧ ws ≠ [] ∧ 1 ≤ t ∧ t ≤ max_tier_for_level pl ∧
        ∀ u, t < u → u ≤ max_tier_for_level pl → tb.bucket u = []) ∧
    (tb.bucket chosen = [] → scanDown tb (max_tier_for_level pl) = none →
      resolveWords tb chosen (max_tier_for_level pl) =
          (chosen, tb.b1 ++ tb.b2 ++ tb.b3) ∧
        ∀ u, 1 ≤ u → u ≤ max_tier_for_level pl → tb.bucket u = []) := by
  refine ⟨?_, ?_, resolveWords_pos tb chosen _, ?_, ?_⟩
  · constructor
    · intro h
      rw [← resolveWords_empty_iff tb chosen (max_tier_for_level pl)]
      by_contra hne
      unfold create_enemy at h
      rw [if_neg hne] at h
      exact absurd h (by simp)
    · intro hall
      have he : (resolveWords tb chosen (max_tier_for_level pl)).2 = [] :=
        (resolveWords_empty_iff tb chosen (max_tier_for_level pl)).mpr hall
      unfold create_enemy
      rw [if_pos he]
  · intro hne
    have he : ¬ (resolveWords tb chosen (max_tier_for_level pl)).2 = [] := by
      rw [resolveWords_empty_iff tb chosen (max_tier_for_level pl)]
      tauto
    refine ⟨_, by unfold create_enemy; rw [if_neg he], ?_⟩
    show capPool (resolveWords tb chosen (max_tier_for_level pl)).2 idxs ≠ []
    unfold capPool
    split
    · next hlen =>
      obtain ⟨h25, hbound⟩ := hs hlen
      have := sampleIdx_length (resolveWords tb chosen (max_tier_for_level pl)).2 idxs hbound
      intro hnil
      rw [hnil] at this
      simp [h25] at this
    · exact he
  · intro hc t ws hscan
    exact ⟨resolveWords_scan tb chosen _ t ws hc hscan,
      scanDown_some tb _ t ws hscan⟩
  · intro hc hscan
    exact ⟨resolveWords_flat tb chosen _ hc hscan, scanDown_none tb _ hscan⟩

/-- Witness for C3: a pool with a single tier-1 word yields an enemy with a
non-empty word set; an empty pool yields the fatal error; a chosen tier 2 with
an empty bucket falls back to the non-empty tier-1 bucket. -/
theorem create_enemy_spec_witness :
    (∃ en, create_enemy tbOne 1 1 [] = Except.ok en ∧ en.words ≠ []) ∧
    create_enemy tbEmpty 1 1 [] = Except.error "No words available to create enemy!" ∧
    resolveWords tbOne 2 (max_tier_for_level 1) = (1, [nekoEntry]) := by
  refine ⟨(create_enemy_spec tbOne 1 1 [] (by decide)).2.1 (Or.inl (by decide)), ?_, ?_⟩
  · exact ((create_enemy_spec tbEmpty 1 1 [] (by decide)).1).mpr ⟨rfl, rfl, rfl⟩
  · exact (((create_enemy_spec tbOne 1 2 [] (by decide)).2.2.2.1 (by decide))
      1 [nekoEntry] (by decide)).1

/-- C9: the enemy's initial vocabulary is a sample without replacement of
exactly `min 25 (bucket size)` records from the resolved bucket: a bucket of
more than 25 records yields exactly 25 records at pairwise-distinct positions
(duplicate-free whenever the bucket is), drawn from the bucket; a bucket of at
most 25 records is used whole. -/
theorem capPool_spec (l : List LexEntry) (idxs : List Nat) :
    (l.length ≤ 25 → capPool l idxs = l ∧ (capPool l idxs).length = min 25 l.length) ∧
    (25 < l.length → idxs.length = 25 → idxs.Nodup → (∀ i ∈ idxs, i < l.length) →
      (capPool l idxs).length = 25 ∧
      (capPool l idxs).length = min 25 l.length ∧
      (l.Nodup → (capPool l idxs).Nodup) ∧
      ∀ w ∈ capPool l idxs, w ∈ l) := by
  constructor
  · intro hle
    have hcap : capPool l idxs = l := by
      unfold capPool
      rw [if_neg (by omega)]
    exact ⟨hcap, by rw [hcap]; omega⟩
  · intro hlt h25 hnd hbound
    have hcap : capPool l idxs = sampleIdx l idxs := by
      unfold capPool
      rw [if_pos hlt]
    have hlen : (capPool l idxs).length = 25 := by
      rw [hcap, sampleIdx_length l idxs hbound, h25]
    refine ⟨hlen, by omega, ?_, ?_⟩
    · intro hl
      rw [hcap]
      exact sampleIdx_nodup l hl idxs hnd hbound
    · intro w hw
      rw [hcap] at hw
      exact sampleIdx_subset l idxs w hw

/-- Witness for C9: a 40-record bucket caps to exactly 25 records; a
single-record bucket is used whole. -/
theorem capPool_spec_witness :
    (capPool bucket40 (List.range 25)).length = 25 ∧
    capPool [nekoEntry] (List.range 25) = [nekoEntry] :=
  ⟨((capPool_spec bucket40 (List.range 25)).2 (by decide) (by decide) (by decide)
      (by decide)).1,
   ((capPool_spec [nekoEntry] (List.range 25)).1 (by decide)).1⟩

end KanjiRoguelite
